import Mathlib

/-!
Shallow embedding of the b0map MRD reconstruction script
(src/recipes/b0map/b0map.py) and proofs about its claims.

Modelling conventions:
* Pixel scalars are rationals (ℚ).  The incoming image samples, the
  float64 conversion, numpy rounding and the int16 cast are modelled in
  exact rational/integer arithmetic; the values exercised by the script
  (integral data, halves at rounding ties) are exactly representable in
  float64, so the rational model agrees with the float semantics on them.
* numpy arrays are total functions over Fin-indexed coordinates.  The MRD
  Image class stores data as a 4-D array indexed [cha z y x]; the script
  stacks a group of images into a 5-D array indexed [img cha z y x].
* Side effects (directory creation, NIfTI file writes, subprocess
  invocations, messages sent over the MRD connection) are recorded in an
  explicit effect trace.  Logging to the local logger is not an observable
  effect of the program and is not traced.
* The serialized XML attribute string of an image is identified with the
  Meta dictionary it serializes (Meta.serialize/deserialize round-trip).
-/

namespace B0

/-- ismrmrd image data-type codes (ismrmrd.h DataTypes). -/
inductive MRDDataType where
  | ushort
  | short
  | uint
  | int
  | float
  | double
  | cxfloat
  | cxdouble
deriving DecidableEq, Repr

/-- ismrmrd acquisition flag bit: ACQ_LAST_IN_SLICE (ismrmrd.h flag 8). -/
def ACQ_LAST_IN_SLICE : Nat := 8

/-- ismrmrd acquisition flag bit: ACQ_IS_NOISE_MEASUREMENT (flag 19). -/
def ACQ_IS_NOISE_MEASUREMENT : Nat := 19

/-- ismrmrd acquisition flag bit: ACQ_IS_PARALLEL_CALIBRATION (flag 20). -/
def ACQ_IS_PARALLEL_CALIBRATION : Nat := 20

/-- ismrmrd acquisition flag bit: ACQ_IS_NAVIGATION_DATA (flag 23). -/
def ACQ_IS_NAVIGATION_DATA : Nat := 23

/-- ismrmrd acquisition flag bit: ACQ_IS_PHASECORR_DATA (flag 24). -/
def ACQ_IS_PHASECORR_DATA : Nat := 24

/-- ismrmrd image type code IMTYPE_COMPLEX (ismrmrd.h ImageTypes). -/
def IMTYPE_COMPLEX : Nat := 5

/-- Modelled from the spec: constants.MRD_LOGGING_ERROR, the logging level
tag of the surrounding MRD streaming framework (the constants module is part
of the python-ismrmrd-server framework, not of this repository's sources). -/
def MRD_LOGGING_ERROR : String := "ERROR"

/-- Value stored under one key of an ismrmrd Meta attribute dictionary. -/
inductive MetaVal where
  | str : String → MetaVal
  | num : Nat → MetaVal
  | strList : List String → MetaVal
  | roi : List Nat → MetaVal
deriving DecidableEq, Repr

/-- ismrmrd Meta attribute dictionary: ordered key/value pairs with
assignment replacing an existing binding. -/
structure Meta where
  entries : List (String × MetaVal)
deriving DecidableEq, Repr

/-- Dictionary assignment: drop any existing binding of the key, bind anew. -/
def Meta.set (m : Meta) (k : String) (v : MetaVal) : Meta :=
  { entries := m.entries.filter (fun p => p.1 != k) ++ [(k, v)] }

/-- Dictionary lookup. -/
def Meta.get (m : Meta) (k : String) : Option MetaVal :=
  (m.entries.find? (fun p => p.1 == k)).map (fun p => p.2)

/-- The fixed MRD image header.  The fields the script reads or writes are
explicit; all remaining fixed fields (matrix size, field of view, position,
orientation offsets, counters, user arrays, ...) are aggregated in
otherFields, which the script never touches. -/
structure ImageHeader where
  data_type : MRDDataType
  image_type : Nat
  image_series_index : Nat
  read_dir : ℚ × ℚ × ℚ
  phase_dir : ℚ × ℚ × ℚ
  otherFields : Nat
deriving DecidableEq, Repr

/-- 4-D numpy-style array, indexed [cha z y x] like MRD image data. -/
def Arr4 (α : Type) (c z y x : Nat) : Type :=
  Fin c → Fin z → Fin y → Fin x → α

/-- 5-D numpy-style array. -/
def Arr5 (α : Type) (d0 d1 d2 d3 d4 : Nat) : Type :=
  Fin d0 → Fin d1 → Fin d2 → Fin d3 → Fin d4 → α

/-- Elementwise map over a 5-D array (numpy astype / ufunc application). -/
def arr5map {α β : Type} {d0 d1 d2 d3 d4 : Nat} (f : α → β)
    (a : Arr5 α d0 d1 d2 d3 d4) : Arr5 β d0 d1 d2 d3 d4 :=
  fun i0 i1 i2 i3 i4 => f (a i0 i1 i2 i3 i4)

/-- numpy a.transpose((3, 4, 0, 1, 2)): result axis k is original axis p[k],
so the result at index (i0..i4) reads the original at axes
0←i2, 1←i3, 2←i4, 3←i0, 4←i1. -/
def transpose34012 {α : Type} {d0 d1 d2 d3 d4 : Nat}
    (a : Arr5 α d0 d1 d2 d3 d4) : Arr5 α d3 d4 d0 d1 d2 :=
  fun i0 i1 i2 i3 i4 => a i2 i3 i4 i0 i1

/-- numpy a.transpose((0, 1, 4, 3, 2)). -/
def transpose01432 {α : Type} {d0 d1 d2 d3 d4 : Nat}
    (a : Arr5 α d0 d1 d2 d3 d4) : Arr5 α d0 d1 d4 d3 d2 :=
  fun i0 i1 i2 i3 i4 => a i0 i1 i4 i3 i2

/-- numpy a.transpose((3, 2, 0, 1)) on a 4-D array. -/
def transpose3201 {α : Type} {d0 d1 d2 d3 : Nat}
    (a : Arr4 α d0 d1 d2 d3) : Arr4 α d3 d2 d0 d1 :=
  fun i0 i1 i2 i3 => a i2 i3 i1 i0

/-- numpy a[..., i]: fix the last axis of a 5-D array. -/
def sliceLast {α : Type} {d0 d1 d2 d3 d4 : Nat}
    (a : Arr5 α d0 d1 d2 d3 d4) (i : Fin d4) : Arr4 α d0 d1 d2 d3 :=
  fun i0 i1 i2 i3 => a i0 i1 i2 i3 i

/-- data.astype(np.float64): exact on every value the script produces, so the
rational model leaves the value unchanged. -/
def npFloat64 (q : ℚ) : ℚ := q

/-- Rounding to the nearest integer, ties to even: the rounding mode of
np.around (decimals=0). -/
def roundHalfToEven (q : ℚ) : ℤ :=
  let f : ℤ := ⌊q⌋
  if q - f < 1/2 then f
  else if q - f > 1/2 then f + 1
  else if f % 2 = 0 then f else f + 1

/-- np.around(data): round each element half-to-even, result still floating. -/
def npAround (q : ℚ) : ℚ := (roundHalfToEven q : ℚ)

/-- C-style truncation toward zero of a rational (the first step of a numpy
float → integer cast). -/
def truncToInt (q : ℚ) : ℤ := q.num / (q.den : ℤ)

/-- Wrap an integer into the int16 range [-32768, 32768). -/
def wrapInt16 (n : ℤ) : ℤ := (n + 32768) % 65536 - 32768

/-- data.astype(np.int16): truncate toward zero and wrap to 16 bits signed. -/
def npInt16cast (q : ℚ) : ℚ := ((wrapInt16 (truncToInt q) : ℤ) : ℚ)

/-- The complete per-element numeric pipeline of process_image:
float64 conversion, np.around, int16 cast. -/
def pixelPipeline (q : ℚ) : ℚ := npInt16cast (npAround (npFloat64 q))

/-- An MRD image: pixel data [cha z y x], fixed header, and the Meta
attribute dictionary carried by its serialized attribute_string. -/
structure MRDImage (c z y x : Nat) where
  data : Arr4 ℚ c z y x
  head : ImageHeader
  attribute_string : Meta

/-- ismrmrd.Image.from_array(arr, transpose=False): a fresh image holding the
array, with a default header whose data_type reflects the array dtype (the
script calls it on int16 data, dtype DATATYPE_SHORT). -/
def imageFromArray {c z y x : Nat} (arr : Arr4 ℚ c z y x) (dt : MRDDataType) :
    MRDImage c z y x :=
  { data := arr
    head :=
      { data_type := dt
        image_type := 0
        image_series_index := 0
        read_dir := (0, 0, 0)
        phase_dir := (0, 0, 0)
        otherFields := 0 }
    attribute_string := ⟨[]⟩ }

/-- Modelled from the spec: the JSON configuration read through
mrdhelper.get_json_config_param (mrdhelper belongs to the surrounding
python-ismrmrd-server framework).  Each field holds the configured value or
the script's default; the numeric mask/echo parameters are read by the script
but used only by commented-out code, so only the fields below are observable:
sendoriginal, and the optional config['parameters']['options'] string. -/
structure Config where
  sendoriginal : Bool
  interleaved : Bool
  options : Option String
deriving DecidableEq, Repr

/-- The parts of the MRD XML header the script reads: the first encoding's
encoded-space matrix size and field of view (used for voxel sizes, which the
live code computes and then never uses). -/
structure MRDHeader where
  matrixSizeX : Nat
  matrixSizeY : Nat
  matrixSizeZ : Nat
  fovX : ℚ
  fovY : ℚ
  fovZ : ℚ
deriving DecidableEq, Repr

/-- Observable side effects of the script. -/
inductive Effect (c z y x : Nat) where
  | mkdirDebug : Effect c z y x
  | niftiSave : String → Effect c z y x
  | subprocessRun : List String → Effect c z y x
  | sendImage : List (MRDImage c z y x) → Effect c z y x
  | sendLogging : String → String → Effect c z y x
  | sendClose : Effect c z y x

/-- Effect classifier: connection.send_image. -/
def Effect.isSendImage {c z y x : Nat} : Effect c z y x → Bool
  | .sendImage _ => true
  | _ => false

/-- Effect classifier: connection.send_close. -/
def Effect.isSendClose {c z y x : Nat} : Effect c z y x → Bool
  | .sendClose => true
  | _ => false

/-- Effect classifier: connection.send_logging. -/
def Effect.isSendLogging {c z y x : Nat} : Effect c z y x → Bool
  | .sendLogging _ _ => true
  | _ => false

/-- Effect classifier: subprocess.run (the external brain-extraction call). -/
def Effect.isSubprocessRun {c z y x : Nat} : Effect c z y x → Bool
  | .subprocessRun _ => true
  | _ => false

/-- Effect classifier: nib.save of a NIfTI file. -/
def Effect.isNiftiSave {c z y x : Nat} : Effect c z y x → Bool
  | .niftiSave _ => true
  | _ => false

/-- Effect classifier: writes to durable storage (directory creation and
file writes; connection messages and process spawns are not durable). -/
def Effect.isDurableWrite {c z y x : Nat} : Effect c z y x → Bool
  | .mkdirDebug => true
  | .niftiSave _ => true
  | _ => false

/-- BitsStored is hard-coded to 12 in the script (the header lookup that
could override it is commented out). -/
def BitsStored : Nat := 12

/-- maxVal = 2 ** BitsStored - 1. -/
def maxVal : Nat := 2 ^ BitsStored - 1

/-- Python str() of a float whose value is integral, the only case the
script produces (it renders e.g. 2048.0 as "2048.0"). -/
def pyFloatStr (q : ℚ) : String :=
  if q.den = 1 then toString q.num ++ ".0" else toString q

/-- Models the "\x7b:.18f\x7d".format rendering of a direction-cosine
component.  No claim depends on the digits, so the rational is rendered
with its exact decimal expansion. -/
def fmt18 (q : ℚ) : String := toString q

/-- The example-ROI helper of the source (create_example_roi).  Its
coordinates are generated with floating-point trigonometry (np.sin/np.cos),
which is outside this exact embedding; the ROI payload is modelled as an
opaque value recording the image shape it was built from.  No claim depends
on the coordinates. -/
def create_example_roi (imgShape : List Nat) : MetaVal := MetaVal.roi imgShape

/-- Stack the data of a group of images into a 5-D array [img cha z y x]
(np.stack of the per-image [cha z y x] arrays). -/
def stackData {c z y x : Nat} (g : List (MRDImage c z y x)) :
    Arr5 ℚ g.length c z y x :=
  fun i ch iz iy ix => (g.get i).data ch iz iy ix

/-- The tail of the per-image Meta update chain of process_image: the
config-dependent ROI / colormap attributes, then ImageRowDir and
ImageColumnDir when not already present (taken from the header's direction
cosines). -/
def metaExtras (m1 : Meta) (cfg : Config) (shape : List Nat)
    (hd : ImageHeader) : Meta :=
  let m2 :=
    match cfg.options with
    | some o =>
        let ma := if o = "roi" then m1.set "ROI_example" (create_example_roi shape) else m1
        if o = "colormap" then ma.set "LUTFileName" (MetaVal.str "MicroDeltaHotMetal.pal")
        else ma
    | none => m1
  let m3 :=
    if (m2.get "ImageRowDir").isNone then
      m2.set "ImageRowDir" (MetaVal.strList
        [fmt18 hd.read_dir.1, fmt18 hd.read_dir.2.1, fmt18 hd.read_dir.2.2])
    else m2
  if (m3.get "ImageColumnDir").isNone then
    m3.set "ImageColumnDir" (MetaVal.strList
      [fmt18 hd.phase_dir.1, fmt18 hd.phase_dir.2.1, fmt18 hd.phase_dir.2.2])
  else m3

/-- The body of the per-image output loop of process_image: build the output
image from the re-sliced int16 data via from_array, copy the original fixed
header updating data_type (and image_type for complex data), and copy the
original Meta attributes with the script's updates.  The currentSeries
bookkeeping driven by the IceMiniHead BIsSeriesEnd flag is omitted: its value
is never written to any header (the assignment is commented out in the
source). -/
def buildOut {c z y x : Nat} (oldHead0 : ImageHeader) (meta0 : Meta)
    (arr : Arr4 ℚ c z y x) (cfg : Config) (shape : List Nat) :
    MRDImage c z y x :=
  let img0 := imageFromArray arr MRDDataType.short
  let oldHeader1 : ImageHeader := { oldHead0 with data_type := img0.head.data_type }
  let oldHeader :=
    if img0.head.data_type = MRDDataType.cxfloat ∨
        img0.head.data_type = MRDDataType.cxdouble then
      { oldHeader1 with image_type := IMTYPE_COMPLEX }
    else oldHeader1
  let m1 := (((((meta0.set "DataRole" (MetaVal.str "Image")).set
      "ImageProcessingHistory" (MetaVal.strList ["PYTHON", "AFIB1"])).set
      "WindowCenter" (MetaVal.str (pyFloatStr ((maxVal + 1 : ℚ) / 2)))).set
      "WindowWidth" (MetaVal.str (toString (maxVal + 1)))).set
      "SequenceDescriptionAdditional" (MetaVal.str "AFI B1+ Map")).set
      "Keep_image_geometry" (MetaVal.num 1)
  let m4 := metaExtras m1 cfg shape oldHeader
  { img0 with head := oldHeader, attribute_string := m4 }

/-- The data-processing half of process_image: stack the group into
[img cha z y x], transpose to [y x img cha z], transpose to [y x z cha img],
convert to float64, np.around, cast to int16, and re-slice into one output
image per input image (data[..., i] transposed back to [cha z y x]). -/
def deriveImages {c z y x : Nat} (g : List (MRDImage c z y x)) (cfg : Config) :
    List (MRDImage c z y x) :=
  let data0 := stackData g
  let data1 := transpose34012 data0
  let data2 := transpose01432 data1
  let data3 := arr5map npFloat64 data2
  let data4 := arr5map npAround data3
  let data5 := arr5map npInt16cast data4
  let shape : List Nat := [y, x, z, c, g.length]
  List.ofFn (fun i : Fin g.length =>
    buildOut (g.get i).head (g.get i).attribute_string
      (transpose3201 (sliceLast data5 i)) cfg shape)

/-- The per-original transformation applied when sendoriginal is set: the
series index becomes 99 and Keep_image_geometry is forced to 1 in the Meta
attributes.  (The source comments say "create a copy" but aliases the input;
the difference is unobservable in the returned list.) -/
def sendOriginalTransform {c z y x : Nat} (im : MRDImage c z y x) :
    MRDImage c z y x :=
  let im1 := { im with head := { im.head with image_series_index := 99 } }
  { im1 with attribute_string := im1.attribute_string.set "Keep_image_geometry" (MetaVal.num 1) }

/-- process_image of the script.  Inputs beyond the image group: the JSON
config, the MRD header, whether the debug folder already exists (os.path.exists
on /tmp/share/debug), and whether the caller found on the Python stack is
process_raw (the stack[-2].name check).  Returns the effect trace and the list
of images handed back to the caller. -/
def process_image {c z y x : Nat} (g : List (MRDImage c z y x)) (cfg : Config)
    (hdr : MRDHeader) (debugFolderExists : Bool) (calledFromProcessRaw : Bool) :
    List (Effect c z y x) × List (MRDImage c z y x) :=
  if g.isEmpty then ([], [])
  else
    let folderEffects : List (Effect c z y x) :=
      if debugFolderExists then [] else [Effect.mkdirDebug]
    -- voxel sizes are computed from the header and then never used
    -- (all consumers are commented out); TR and flipAngle_deg are only logged
    let _voxel_sizes : ℚ × ℚ × ℚ :=
      (hdr.fovY / (hdr.matrixSizeY : ℚ),
       hdr.fovX / (hdr.matrixSizeX : ℚ),
       hdr.fovZ / (hdr.matrixSizeZ : ℚ))
    -- nib.save(test_img, '/buildhostdirectory/test.nii') is live code
    let effects := folderEffects ++ [Effect.niftiSave "/buildhostdirectory/test.nii"]
    let derived := deriveImages g cfg
    let imagesOut :=
      if cfg.sendoriginal && !calledFromProcessRaw then
        -- iterate the originals in reverse, inserting each at the front
        g.foldr (fun im acc => sendOriginalTransform im :: acc) derived
      else derived
    (effects, imagesOut)

/-- Position of the first derived image in the output list of process_image:
when sendoriginal is set (and the caller is not process_raw) the originals
are prepended, shifting the derived images by the group size. -/
def derivedOffset (cfg : Config) (calledFromProcessRaw : Bool) (n : Nat) : Nat :=
  if cfg.sendoriginal && !calledFromProcessRaw then n else 0

/-- A raw k-space readout.  Only the flag word is observed by process;
is_flag_set is membership of the flag bit in the flag set. -/
structure Acquisition where
  flags : List Nat
deriving DecidableEq, Repr

/-- item.is_flag_set(f). -/
def Acquisition.is_flag_set (a : Acquisition) (f : Nat) : Bool :=
  a.flags.contains f

/-- A physiological waveform message. -/
structure Waveform where
  time_stamp : Nat
  waveform_id : Nat
  data : List ℤ
deriving DecidableEq, Repr

/-- One item yielded by the MRD connection: an acquisition, an image, a
waveform, the end-of-stream None, or an item of unsupported type. -/
inductive StreamItem (c z y x : Nat) where
  | acq : Acquisition → StreamItem c z y x
  | img : MRDImage c z y x → StreamItem c z y x
  | wav : Waveform → StreamItem c z y x
  | noneItem : StreamItem c z y x
  | unsupported : StreamItem c z y x

/-- The three accumulator groups of the processing loop. -/
structure LoopState (c z y x : Nat) where
  acqGroup : List Acquisition
  imgGroup : List (MRDImage c z y x)
  waveformGroup : List Waveform

/-- The conditional append of an acquisition to the acquisition group: kept
only when none of the noise / parallel-calibration / phase-correction /
navigation flags is set. -/
def keepAcquisition (a : Acquisition) : Bool :=
  !a.is_flag_set ACQ_IS_NOISE_MEASUREMENT &&
  !a.is_flag_set ACQ_IS_PARALLEL_CALIBRATION &&
  !a.is_flag_set ACQ_IS_PHASECORR_DATA &&
  !a.is_flag_set ACQ_IS_NAVIGATION_DATA

/-- Append the acquisition to the group when it passes the flag filter. -/
def acqDispatch (g : List Acquisition) (a : Acquisition) : List Acquisition :=
  if keepAcquisition a then g ++ [a] else g

/-- The type of the (spec-modelled) process_raw routine: it turns an
acquisition group into images to send, or raises (Except.error carries the
traceback text).  process_raw is referenced by process but not defined in the
repository sources; per the spec it "produces derived images" from the
accumulated k-space group, so it is kept abstract here as a parameter. -/
def ProcessRawFn (c z y x : Nat) : Type :=
  List Acquisition → Except String (List (MRDImage c z y x))

/-- The item loop of process: dispatch each item to its group, trigger
process_raw + send_image on ACQ_LAST_IN_SLICE (resetting the acquisition
group), break on None.  Returns the effect trace, the final group state, and
the escaped exception, if any (in which case the loop stops). -/
def processItems {c z y x : Nat} (pr : ProcessRawFn c z y x) :
    List (StreamItem c z y x) → LoopState c z y x →
    List (Effect c z y x) × LoopState c z y x × Option String
  | [], s => ([], s, none)
  | item :: rest, s =>
    match item with
    | .acq a =>
      let g2 := acqDispatch s.acqGroup a
      if a.is_flag_set ACQ_LAST_IN_SLICE then
        match pr g2 with
        | .ok imgs =>
          let r := processItems pr rest { s with acqGroup := [] }
          (Effect.sendImage imgs :: r.1, r.2)
        | .error e => ([], { s with acqGroup := g2 }, some e)
      else processItems pr rest { s with acqGroup := g2 }
    | .img im => processItems pr rest { s with imgGroup := s.imgGroup ++ [im] }
    | .wav w => processItems pr rest { s with waveformGroup := s.waveformGroup ++ [w] }
    | .noneItem => ([], s, none)
    | .unsupported => processItems pr rest s

/-- The image half of the post-loop epilogue: an untriggered non-empty image
group is run through process_image and the result sent. -/
def imageEpilogue {c z y x : Nat} (cfg : Config) (hdr : MRDHeader)
    (debugFolderExists : Bool) (s : LoopState c z y x) :
    List (Effect c z y x) × Option String :=
  if s.imgGroup.length > 0 then
    let r := process_image s.imgGroup cfg hdr debugFolderExists false
    (r.1 ++ [Effect.sendImage r.2], none)
  else ([], none)

/-- The post-loop epilogue of process.  The waveform epilogue (sorting the
waveform group by time stamp and concatenating the ECG channels) only builds
a local value that is never used afterwards, so it contributes no observable
effect.  An untriggered non-empty acquisition group is run through
process_raw and sent; if that raises, the image epilogue is skipped. -/
def processEpilogue {c z y x : Nat} (pr : ProcessRawFn c z y x) (cfg : Config)
    (hdr : MRDHeader) (debugFolderExists : Bool) (s : LoopState c z y x) :
    List (Effect c z y x) × Option String :=
  if s.acqGroup.length > 0 then
    match pr s.acqGroup with
    | .ok imgs =>
      let r := imageEpilogue cfg hdr debugFolderExists s
      (Effect.sendImage imgs :: r.1, r.2)
    | .error e => ([], some e)
  else imageEpilogue cfg hdr debugFolderExists s

/-- The try-block of process: the item loop followed (when no exception
escaped the loop) by the epilogue.  Returns the accumulated effects and the
escaped exception, if any. -/
def processCore {c z y x : Nat} (pr : ProcessRawFn c z y x) (cfg : Config)
    (hdr : MRDHeader) (debugFolderExists : Bool)
    (stream : List (StreamItem c z y x)) :
    List (Effect c z y x) × Option String :=
  let r := processItems pr stream ⟨[], [], []⟩
  match r.2.2 with
  | some e => (r.1, some e)
  | none =>
    let ep := processEpilogue pr cfg hdr debugFolderExists r.2.1
    (r.1 ++ ep.1, ep.2)

/-- process of the script: run the try-block; on an escaped exception send
its traceback with level MRD_LOGGING_ERROR (the except clause); always send
close (the finally clause). -/
def process {c z y x : Nat} (pr : ProcessRawFn c z y x) (cfg : Config)
    (hdr : MRDHeader) (debugFolderExists : Bool)
    (stream : List (StreamItem c z y x)) : List (Effect c z y x) :=
  let r := processCore pr cfg hdr debugFolderExists stream
  match r.2 with
  | some e => r.1 ++ [Effect.sendLogging MRD_LOGGING_ERROR e, Effect.sendClose]
  | none => r.1 ++ [Effect.sendClose]

/-! ### Helper lemmas -/

theorem find?_filter_append_self (t : List (String × MetaVal)) (k : String) (v : MetaVal) :
    List.find? (fun p => p.1 == k) (t.filter (fun p => p.1 != k) ++ [(k, v)]) = some (k, v) := by
  induction t with
  | nil => simp [List.find?]
  | cons a t ih =>
    rcases h : (a.1 == k) with _ | _
    · rw [List.filter_cons]
      simp only [bne, h, Bool.not_false, if_pos]
      rw [List.cons_append, List.find?_cons, h]
      exact ih
    · rw [List.filter_cons]
      simp only [bne, h, Bool.not_true, if_neg]
      exact ih

theorem find?_filter_append_ne (t : List (String × MetaVal)) (k k' : String) (v : MetaVal)
    (h : k' ≠ k) :
    List.find? (fun p => p.1 == k') (t.filter (fun p => p.1 != k) ++ [(k, v)]) =
      List.find? (fun p => p.1 == k') t := by
  induction t with
  | nil =>
    have : (k == k') = false := by
      simpa using (Ne.symm h)
    simp [List.find?, this]
  | cons a t ih =>
    rcases ha : (a.1 == k) with _ | _
    · rw [List.filter_cons]
      simp only [bne, ha, Bool.not_false, if_pos]
      rw [List.cons_append, List.find?_cons, List.find?_cons]
      cases hb : (a.1 == k') with
      | false => exact ih
      | true => rfl
    · rw [List.filter_cons]
      simp only [bne, ha, Bool.not_true, if_neg]
      rw [List.find?_cons]
      have ha' : a.1 = k := by simpa using ha
      have hb : (a.1 == k') = false := by
        simp [ha', Ne.symm h]
      rw [hb]
      exact ih

/-- Reading back the key just assigned yields the assigned value. -/
theorem Meta.get_set_self (m : Meta) (k : String) (v : MetaVal) :
    (m.set k v).get k = some v := by
  unfold Meta.set Meta.get
  rw [find?_filter_append_self]
  rfl

/-- Assigning one key leaves every other key unchanged. -/
theorem Meta.get_set_ne (m : Meta) (k k' : String) (v : MetaVal) (h : k' ≠ k) :
    (m.set k v).get k' = m.get k' := by
  unfold Meta.set Meta.get
  rw [find?_filter_append_ne _ _ _ _ h]

/-- Iterating a list in reverse and inserting each transformed element at the
front of an accumulator prepends the transformed list in its original order. -/
theorem foldr_cons_eq_map_append {α β : Type} (g : List α) (f : α → β) (d : List β) :
    g.foldr (fun im acc => f im :: acc) d = g.map f ++ d := by
  induction g with
  | nil => rfl
  | cons a t ih => simp [ih]

/-- Decomposition of the image list returned by process_image: the originals
(transformed) are prepended exactly when sendoriginal is set and the caller
is not process_raw, followed by the derived images. -/
theorem process_image_images_eq {c z y x : Nat} (g : List (MRDImage c z y x))
    (cfg : Config) (hdr : MRDHeader) (dbg fr : Bool) :
    (process_image g cfg hdr dbg fr).2 =
      (if cfg.sendoriginal && !fr then g.map sendOriginalTransform else []) ++
        deriveImages g cfg := by
  by_cases hg : g.isEmpty
  · have hgnil : g = [] := List.isEmpty_iff.mp hg
    subst hgnil
    simp [process_image, deriveImages, List.ofFn_zero]
  · unfold process_image
    rw [if_neg hg]
    by_cases hc : (cfg.sendoriginal && !fr) = true
    · simp only [hc, if_pos]
      exact foldr_cons_eq_map_append g sendOriginalTransform _
    · simp only [hc]
      simp

/-- The effect trace of process_image: empty for an empty group, otherwise
the optional debug-folder creation followed by the NIfTI debug dump. -/
theorem process_image_effects_eq {c z y x : Nat} (g : List (MRDImage c z y x))
    (cfg : Config) (hdr : MRDHeader) (dbg fr : Bool) :
    (process_image g cfg hdr dbg fr).1 =
      if g.isEmpty then []
      else (if dbg then [] else [Effect.mkdirDebug]) ++
        [Effect.niftiSave "/buildhostdirectory/test.nii"] := by
  unfold process_image
  by_cases hg : g.isEmpty
  · simp [hg]
  · simp [hg]

/-- One derived output image per input image. -/
theorem deriveImages_length {c z y x : Nat} (g : List (MRDImage c z y x))
    (cfg : Config) : (deriveImages g cfg).length = g.length := by
  simp [deriveImages]

/-- The keys written by metaExtras are disjoint from a given key, so reading
that key afterwards reads the base dictionary. -/
theorem metaExtras_get_preserved (m1 : Meta) (cfg : Config) (shape : List Nat)
    (hd : ImageHeader) (k : String) (h1 : k ≠ "ROI_example")
    (h2 : k ≠ "LUTFileName") (h3 : k ≠ "ImageRowDir")
    (h4 : k ≠ "ImageColumnDir") :
    (metaExtras m1 cfg shape hd).get k = m1.get k := by
  unfold metaExtras
  rcases cfg.options with _ | o
  · simp only []
    split_ifs <;> simp [Meta.get_set_ne, h3, h4]
  · simp only []
    split_ifs <;> simp [Meta.get_set_ne, h1, h2, h3, h4]

/-- The WindowCenter string constant: (2 ** 12 - 1 + 1) / 2 rendered as a
Python float. -/
theorem pyFloatStr_windowCenter : pyFloatStr ((maxVal + 1 : ℚ) / 2) = "2048.0" := by
  have h : ((maxVal + 1 : ℚ) / 2) = (2048 : ℚ) := by
    norm_num [maxVal, BitsStored]
  rw [h]
  rfl

/-- The WindowWidth string constant. -/
theorem toString_windowWidth : toString (maxVal + 1) = "4096" := by
  rfl

/-- The Meta attributes process_image puts on every derived image, read back
from the final dictionary: the five fixed attributes of the claim hold no
matter what the incoming Meta contained and what the config holds. -/
theorem buildOut_meta_gets {c z y x : Nat} (h0 : ImageHeader) (m0 : Meta)
    (arr : Arr4 ℚ c z y x) (cfg : Config) (shape : List Nat) :
    (buildOut h0 m0 arr cfg shape).attribute_string.get "DataRole"
        = some (MetaVal.str "Image") ∧
    (buildOut h0 m0 arr cfg shape).attribute_string.get "ImageProcessingHistory"
        = some (MetaVal.strList ["PYTHON", "AFIB1"]) ∧
    (buildOut h0 m0 arr cfg shape).attribute_string.get "Keep_image_geometry"
        = some (MetaVal.num 1) ∧
    (buildOut h0 m0 arr cfg shape).attribute_string.get "WindowCenter"
        = some (MetaVal.str "2048.0") ∧
    (buildOut h0 m0 arr cfg shape).attribute_string.get "WindowWidth"
        = some (MetaVal.str "4096") := by
  unfold buildOut
  simp only []
  refine ⟨?_, ?_, ?_, ?_, ?_⟩ <;>
    rw [metaExtras_get_preserved] <;>
      simp [Meta.get_set_ne, Meta.get_set_self, pyFloatStr_windowCenter,
        toString_windowWidth]

/-- The header-update rule stated by the claim for C6: copy the original
fixed header, update data_type to the output image's data type, and set
image_type to IMTYPE_COMPLEX exactly when that data type is complex-float or
complex-double. -/
def specHeaderUpdate (h : ImageHeader) (dt : MRDDataType) : ImageHeader :=
  let h1 := { h with data_type := dt }
  if dt = MRDDataType.cxfloat ∨ dt = MRDDataType.cxdouble then
    { h1 with image_type := IMTYPE_COMPLEX }
  else h1

/-- Pixel data of the derived images: elementwise pixelPipeline of the
corresponding input image at identical [cha z y x] coordinates (the two 5-D
transposes, the final slice and the 4-D transpose compose to the identity
permutation). -/
theorem deriveImages_map_data {c z y x : Nat} (g : List (MRDImage c z y x))
    (cfg : Config) :
    (deriveImages g cfg).map MRDImage.data =
      List.ofFn (fun i : Fin g.length =>
        fun ch iz iy ix => pixelPipeline ((g.get i).data ch iz iy ix)) := by
  unfold deriveImages
  rw [List.map_ofFn]
  rfl

/-- Headers of the derived images: the claimed update rule applied to the
input header with the int16 output data type. -/
theorem deriveImages_map_head {c z y x : Nat} (g : List (MRDImage c z y x))
    (cfg : Config) :
    (deriveImages g cfg).map MRDImage.head =
      List.ofFn (fun i : Fin g.length =>
        specHeaderUpdate (g.get i).head MRDDataType.short) := by
  unfold deriveImages
  rw [List.map_ofFn]
  rfl

/-- Dropping the prepended originals from the output of process_image leaves
exactly the derived images. -/
theorem process_image_drop_offset {c z y x : Nat} (g : List (MRDImage c z y x))
    (cfg : Config) (hdr : MRDHeader) (dbg fr : Bool) :
    ((process_image g cfg hdr dbg fr).2).drop (derivedOffset cfg fr g.length) =
      deriveImages g cfg := by
  rw [process_image_images_eq]
  unfold derivedOffset
  by_cases hc : (cfg.sendoriginal && !fr) = true
  · rw [if_pos hc, if_pos hc]
    have hlen : g.length = (g.map sendOriginalTransform).length := by
      simp
    rw [hlen, List.drop_left]
  · rw [if_neg hc, if_neg hc]
    simp

/-- C1: For every non-empty imgGroup, process_image applies no phase
unwrapping, masking, or signal-ratio computation: the pixel data of the i-th
derived output image (the i-th output image once the originals optionally
prepended by sendoriginal are skipped; with the default sendoriginal = false
the offset is zero and these are exactly the output images) equals the i-th
input image's data converted to float64, rounded with np.around and cast to
int16, at identical [cha z y x] coordinates — the numeric pipeline is the
identity up to rounding and dtype conversion. -/
theorem b0_c1 {c z y x : Nat} (g : List (MRDImage c z y x)) (cfg : Config)
    (hdr : MRDHeader) (dbg fr : Bool) :
    (((process_image g cfg hdr dbg fr).2).drop
        (derivedOffset cfg fr g.length)).map MRDImage.data =
      List.ofFn (fun i : Fin g.length =>
        fun ch iz iy ix =>
          npInt16cast (npAround (npFloat64 ((g.get i).data ch iz iy ix)))) := by
  rw [process_image_drop_offset, deriveImages_map_data]
  rfl

/-- C9: called with an empty imgGroup, process_image returns immediately:
no effects (no folder creation, no file write, no sends) and no images. -/
theorem b0_c9 {c z y x : Nat} (cfg : Config) (hdr : MRDHeader) (dbg fr : Bool) :
    process_image ([] : List (MRDImage c z y x)) cfg hdr dbg fr = ([], []) := by
  rfl

/-- C7: process_image re-slices the stacked data into one 2-D MRD image per
input image.  With sendoriginal false the output is exactly the derived
images, one per input; with sendoriginal true and a caller other than
process_raw the (transformed) originals are prepended in their original
order, doubling the list; every prepended original keeps its pixel data and
carries image_series_index 99 and Keep_image_geometry = 1. -/
theorem b0_c7 {c z y x : Nat} (g : List (MRDImage c z y x)) (cfg : Config)
    (hdr : MRDHeader) (dbg fr : Bool) :
    (process_image g cfg hdr dbg fr).2 =
      (if cfg.sendoriginal && !fr then g.map sendOriginalTransform else []) ++
        deriveImages g cfg ∧
    (process_image g cfg hdr dbg fr).2.length =
      (if cfg.sendoriginal && !fr then 2 * g.length else g.length) ∧
    ∀ im : MRDImage c z y x,
      (sendOriginalTransform im).data = im.data ∧
      (sendOriginalTransform im).head.image_series_index = 99 ∧
      (sendOriginalTransform im).attribute_string.get "Keep_image_geometry" =
        some (MetaVal.num 1) := by
  refine ⟨process_image_images_eq g cfg hdr dbg fr, ?_, ?_⟩
  · rw [process_image_images_eq]
    by_cases hc : (cfg.sendoriginal && !fr) = true
    · rw [if_pos hc, if_pos hc]
      simp [deriveImages_length, two_mul]
    · rw [if_neg hc, if_neg hc]
      simp [deriveImages_length]
  · intro im
    refine ⟨rfl, rfl, ?_⟩
    exact Meta.get_set_self _ _ _

/-- C6: the header of the i-th derived output image (the i-th output image
once the originals optionally prepended by sendoriginal are skipped; with the
default sendoriginal = false these are exactly the output images) equals the
i-th input image's header with only data_type updated to the output image's
data type — DATATYPE_SHORT, as the data was cast to int16 — and image_type
updated to IMTYPE_COMPLEX only when that data type is complex-float or
complex-double; every other header field is unchanged. -/
theorem b0_c6 {c z y x : Nat} (g : List (MRDImage c z y x)) (cfg : Config)
    (hdr : MRDHeader) (dbg fr : Bool) :
    (((process_image g cfg hdr dbg fr).2).drop
        (derivedOffset cfg fr g.length)).map MRDImage.head =
      List.ofFn (fun i : Fin g.length =>
        specHeaderUpdate (g.get i).head MRDDataType.short) := by
  rw [process_image_drop_offset, deriveImages_map_head]

/-- C10: every derived output image of process_image carries the fixed meta
attributes DataRole = 'Image', ImageProcessingHistory = ['PYTHON', 'AFIB1'],
Keep_image_geometry = 1, WindowCenter = '2048.0' and WindowWidth = '4096',
for every incoming header, image group and config (the window values are the
constants determined by the hard-coded BitsStored = 12). -/
theorem b0_c10 {c z y x : Nat} (g : List (MRDImage c z y x)) (cfg : Config)
    (hdr : MRDHeader) (dbg fr : Bool) :
    BitsStored = 12 ∧
    (((process_image g cfg hdr dbg fr).2).drop
        (derivedOffset cfg fr g.length)).map
      (fun im =>
        (im.attribute_string.get "DataRole",
         im.attribute_string.get "ImageProcessingHistory",
         im.attribute_string.get "Keep_image_geometry",
         im.attribute_string.get "WindowCenter",
         im.attribute_string.get "WindowWidth")) =
      List.replicate g.length
        (some (MetaVal.str "Image"),
         some (MetaVal.strList ["PYTHON", "AFIB1"]),
         some (MetaVal.num 1),
         some (MetaVal.str "2048.0"),
         some (MetaVal.str "4096")) := by
  refine ⟨rfl, ?_⟩
  rw [process_image_drop_offset]
  unfold deriveImages
  simp only []
  rw [List.map_ofFn]
  rw [List.eq_replicate_iff]
  constructor
  · simp
  · intro b hb
    rw [List.mem_ofFn] at hb
    obtain ⟨j, hj⟩ := hb
    obtain ⟨h1, h2, h3, h4, h5⟩ := buildOut_meta_gets (g.get j).head
      (g.get j).attribute_string
      (transpose3201 (sliceLast (arr5map npInt16cast (arr5map npAround
        (arr5map npFloat64 (transpose01432 (transpose34012 (stackData g)))))) j))
      cfg [y, x, z, c, g.length]
    rw [← hj]
    simp only [Function.comp]
    rw [h1, h2, h3, h4, h5]

/-- Writes the script is known to perform: creating the debug folder and
saving the debug NIfTI file. -/
def isPermittedWrite {c z y x : Nat} : Effect c z y x → Bool
  | .mkdirDebug => true
  | .niftiSave p => p == "/buildhostdirectory/test.nii"
  | _ => false

/-- Every effect emitted inside the item loop is a connection.send_image. -/
theorem processItems_effects_sendImage {c z y x : Nat} (pr : ProcessRawFn c z y x)
    (stream : List (StreamItem c z y x)) :
    ∀ s : LoopState c z y x, ∀ e ∈ (processItems pr stream s).1,
      e.isSendImage = true := by
  induction stream with
  | nil =>
    intro s e he
    simp [processItems] at he
  | cons item rest ih =>
    intro s e he
    cases item with
    | acq a =>
      rw [processItems] at he
      by_cases hf : a.is_flag_set ACQ_LAST_IN_SLICE
      · rw [if_pos hf] at he
        cases hpr : pr (acqDispatch s.acqGroup a) with
        | ok imgs =>
          rw [hpr] at he
          simp only [List.mem_cons] at he
          rcases he with he | he
          · rw [he]; rfl
          · exact ih _ e he
        | error msg =>
          rw [hpr] at he
          simp at he
      · rw [if_neg hf] at he
        exact ih _ e he
    | img im =>
      rw [processItems] at he
      exact ih _ e he
    | wav w =>
      rw [processItems] at he
      exact ih _ e he
    | noneItem =>
      rw [processItems] at he
      simp at he
    | unsupported =>
      rw [processItems] at he
      exact ih _ e he

/-- Every effect of process_image is the debug-folder creation or the NIfTI
debug save. -/
theorem process_image_effects_classified {c z y x : Nat}
    (g : List (MRDImage c z y x)) (cfg : Config) (hdr : MRDHeader)
    (dbg fr : Bool) :
    ∀ e ∈ (process_image g cfg hdr dbg fr).1,
      e = Effect.mkdirDebug ∨ e = Effect.niftiSave "/buildhostdirectory/test.nii" := by
  intro e he
  rw [process_image_effects_eq] at he
  by_cases hg : g.isEmpty
  · rw [if_pos hg] at he
    simp at he
  · rw [if_neg hg] at he
    rcases List.mem_append.mp he with h | h
    · by_cases hd : dbg
      · rw [if_pos hd] at h
        simp at h
      · rw [if_neg hd] at h
        left
        simpa using h
    · right
      simpa using h

/-- Every effect of the post-loop epilogue is a send_image, the debug-folder
creation, or the NIfTI debug save. -/
theorem processEpilogue_effects_classified {c z y x : Nat}
    (pr : ProcessRawFn c z y x) (cfg : Config) (hdr : MRDHeader) (dbg : Bool)
    (s : LoopState c z y x) :
    ∀ e ∈ (processEpilogue pr cfg hdr dbg s).1,
      e.isSendImage = true ∨ e = Effect.mkdirDebug ∨
        e = Effect.niftiSave "/buildhostdirectory/test.nii" := by
  have himg : ∀ e ∈ (imageEpilogue cfg hdr dbg s).1,
      e.isSendImage = true ∨ e = Effect.mkdirDebug ∨
        e = Effect.niftiSave "/buildhostdirectory/test.nii" := by
    intro e he
    unfold imageEpilogue at he
    by_cases h : s.imgGroup.length > 0
    · rw [if_pos h] at he
      simp only [] at he
      rcases List.mem_append.mp he with h1 | h1
      · rcases process_image_effects_classified _ _ _ _ _ e h1 with h2 | h2
        · exact Or.inr (Or.inl h2)
        · exact Or.inr (Or.inr h2)
      · left
        have : e = Effect.sendImage (process_image s.imgGroup cfg hdr dbg false).2 := by
          simpa using h1
        rw [this]; rfl
    · rw [if_neg h] at he
      simp at he
  intro e he
  unfold processEpilogue at he
  by_cases h : s.acqGroup.length > 0
  · rw [if_pos h] at he
    cases hpr : pr s.acqGroup with
    | ok imgs =>
      rw [hpr] at he
      simp only [List.mem_cons] at he
      rcases he with he | he
      · left; rw [he]; rfl
      · exact himg e he
    | error msg =>
      rw [hpr] at he
      simp at he
  · rw [if_neg h] at he
    exact himg e he

/-- Unfolding equation for processCore with the loop result exposed. -/
theorem processCore_eq {c z y x : Nat} (pr : ProcessRawFn c z y x)
    (cfg : Config) (hdr : MRDHeader) (dbg : Bool)
    (stream : List (StreamItem c z y x)) :
    processCore pr cfg hdr dbg stream =
      match (processItems pr stream ⟨[], [], []⟩).2.2 with
      | some e => ((processItems pr stream ⟨[], [], []⟩).1, some e)
      | none =>
        ((processItems pr stream ⟨[], [], []⟩).1 ++
          (processEpilogue pr cfg hdr dbg
            (processItems pr stream ⟨[], [], []⟩).2.1).1,
         (processEpilogue pr cfg hdr dbg
            (processItems pr stream ⟨[], [], []⟩).2.1).2) := rfl

/-- Unfolding equation for process with the try-block result exposed. -/
theorem process_eq {c z y x : Nat} (pr : ProcessRawFn c z y x)
    (cfg : Config) (hdr : MRDHeader) (dbg : Bool)
    (stream : List (StreamItem c z y x)) :
    process pr cfg hdr dbg stream =
      match (processCore pr cfg hdr dbg stream).2 with
      | some e => (processCore pr cfg hdr dbg stream).1 ++
          [Effect.sendLogging MRD_LOGGING_ERROR e, Effect.sendClose]
      | none => (processCore pr cfg hdr dbg stream).1 ++ [Effect.sendClose] := rfl

/-- Every effect of the try-block of process is a send_image, the debug
folder creation, or the NIfTI debug save; in particular it contains no
send_close and no send_logging. -/
theorem processCore_effects_classified {c z y x : Nat}
    (pr : ProcessRawFn c z y x) (cfg : Config) (hdr : MRDHeader) (dbg : Bool)
    (stream : List (StreamItem c z y x)) :
    ∀ e ∈ (processCore pr cfg hdr dbg stream).1,
      e.isSendImage = true ∨ e = Effect.mkdirDebug ∨
        e = Effect.niftiSave "/buildhostdirectory/test.nii" := by
  intro e he
  rw [processCore_eq] at he
  cases hr : (processItems pr stream ⟨[], [], []⟩).2.2 with
  | some msg =>
    rw [hr] at he
    simp only [] at he
    exact Or.inl (processItems_effects_sendImage pr stream _ e he)
  | none =>
    rw [hr] at he
    simp only [] at he
    rcases List.mem_append.mp he with h | h
    · exact Or.inl (processItems_effects_sendImage pr stream _ e h)
    · exact processEpilogue_effects_classified pr cfg hdr dbg _ e h

/-- C5: no execution path of process_image (nor of process as a whole)
invokes the external skull-stripping binary: the effect trace contains no
subprocess.run invocation. -/
theorem b0_c5 {c z y x : Nat} (g : List (MRDImage c z y x))
    (pr : ProcessRawFn c z y x) (cfg : Config) (hdr : MRDHeader) (dbg fr : Bool)
    (stream : List (StreamItem c z y x)) :
    (process_image g cfg hdr dbg fr).1.countP Effect.isSubprocessRun = 0 ∧
    (process pr cfg hdr dbg stream).countP Effect.isSubprocessRun = 0 := by
  constructor
  · rw [List.countP_eq_zero]
    intro e he
    rcases process_image_effects_classified g cfg hdr dbg fr e he with h | h <;>
      rw [h] <;> simp [Effect.isSubprocessRun]
  · rw [List.countP_eq_zero]
    intro e he
    rw [process_eq] at he
    have hcore : ∀ e ∈ (processCore pr cfg hdr dbg stream).1,
        Effect.isSubprocessRun e = false := by
      intro e1 he1
      rcases processCore_effects_classified pr cfg hdr dbg stream e1 he1 with h | h | h
      · cases e1 <;> first | rfl | exact absurd h (by simp [Effect.isSendImage])
      · rw [h]; rfl
      · rw [h]; rfl
    cases hr : (processCore pr cfg hdr dbg stream).2 with
    | some msg =>
      rw [hr] at he
      simp only [List.mem_append, List.mem_cons] at he
      rcases he with h | h
      · rw [hcore e h]; simp
      · rcases h with h | h | h
        · rw [h]; simp [Effect.isSubprocessRun]
        · rw [h]; simp [Effect.isSubprocessRun]
        · simp at h
    | none =>
      rw [hr] at he
      simp only [List.mem_append, List.mem_cons] at he
      rcases he with h | h
      · rw [hcore e h]; simp
      · rcases h with h | h
        · rw [h]; simp [Effect.isSubprocessRun]
        · simp at h

/-! ### Concrete instances used by counterexamples and witnesses -/

/-- A concrete incoming image header (float input data, series 1). -/
def wHead : ImageHeader :=
  { data_type := MRDDataType.float
    image_type := 1
    image_series_index := 1
    read_dir := (1, 0, 0)
    phase_dir := (0, 1, 0)
    otherFields := 0 }

/-- A concrete 1x1x1x1 input image whose single sample is 7/2. -/
def wImg : MRDImage 1 1 1 1 :=
  { data := fun _ _ _ _ => (7 : ℚ) / 2
    head := wHead
    attribute_string := ⟨[]⟩ }

/-- The default configuration (all options absent). -/
def cfg0 : Config :=
  { sendoriginal := false, interleaved := false, options := none }

/-- A concrete minimal MRD header. -/
def hdr0 : MRDHeader :=
  { matrixSizeX := 1, matrixSizeY := 1, matrixSizeZ := 1,
    fovX := 1, fovY := 1, fovZ := 1 }

/-- A concrete acquisition carrying only the ACQ_LAST_IN_SLICE flag. -/
def a0 : Acquisition := ⟨[ACQ_LAST_IN_SLICE]⟩

/-- A concrete process_raw stand-in producing an empty image list. -/
def pr0 : ProcessRawFn 1 1 1 1 := fun _ => Except.ok []

/-- The initial (empty) loop state. -/
def s0 : LoopState 1 1 1 1 := ⟨[], [], []⟩

/-- A loop state with an untriggered acquisition group remaining. -/
def s1 : LoopState 1 1 1 1 := ⟨[a0], [], []⟩

/-- C4 counterexample: process_image does write to durable storage.  On the
concrete one-image group (debug folder already present) the whole effect
trace is the nib.save of the debug NIfTI file, a durable-storage write. -/
theorem b0_c4_cex :
    (process_image [wImg] cfg0 hdr0 true false).1 =
      [Effect.niftiSave "/buildhostdirectory/test.nii"] ∧
    Effect.isDurableWrite
      (Effect.niftiSave (c := 1) (z := 1) (y := 1) (x := 1)
        "/buildhostdirectory/test.nii") = true :=
  ⟨rfl, rfl⟩

/-- C4 amended: the program keeps no persistence layer it reads back, but
process_image does write to durable storage: every non-empty call performs
exactly one NIfTI debug save (to /buildhostdirectory/test.nii) plus the
debug-folder creation when the folder is absent, and these are the only
durable-storage writes on any execution path of process_image or process. -/
theorem b0_c4_amended {c z y x : Nat} (g : List (MRDImage c z y x))
    (pr : ProcessRawFn c z y x) (cfg : Config) (hdr : MRDHeader) (dbg fr : Bool)
    (stream : List (StreamItem c z y x)) :
    ((process_image g cfg hdr dbg fr).1.all
      (fun e => !e.isDurableWrite || isPermittedWrite e)) = true ∧
    (process_image g cfg hdr dbg fr).1.countP Effect.isNiftiSave =
      (if g.isEmpty then 0 else 1) ∧
    ((process pr cfg hdr dbg stream).all
      (fun e => !e.isDurableWrite || isPermittedWrite e)) = true := by
  refine ⟨?_, ?_, ?_⟩
  · rw [List.all_eq_true]
    intro e he
    rcases process_image_effects_classified g cfg hdr dbg fr e he with h | h <;>
      rw [h] <;> rfl
  · rw [process_image_effects_eq]
    by_cases hg : g.isEmpty
    · rw [if_pos hg, if_pos hg]
      rfl
    · rw [if_neg hg, if_neg hg]
      by_cases hd : dbg
      · rw [if_pos hd]
        rfl
      · rw [if_neg hd]
        rfl
  · rw [List.all_eq_true]
    intro e he
    rw [process_eq] at he
    have hcore : ∀ e ∈ (processCore pr cfg hdr dbg stream).1,
        (!e.isDurableWrite || isPermittedWrite e) = true := by
      intro e1 he1
      rcases processCore_effects_classified pr cfg hdr dbg stream e1 he1 with h | h | h
      · cases e1 <;> first | rfl | exact absurd h (by simp [Effect.isSendImage])
      · rw [h]; rfl
      · rw [h]; rfl
    cases hr : (processCore pr cfg hdr dbg stream).2 with
    | some msg =>
      rw [hr] at he
      simp only [List.mem_append, List.mem_cons] at he
      rcases he with h | h
      · exact hcore e h
      · rcases h with h | h | h
        · rw [h]; rfl
        · rw [h]; rfl
        · simp at h
    | none =>
      rw [hr] at he
      simp only [List.mem_append, List.mem_cons] at he
      rcases he with h | h
      · exact hcore e h
      · rcases h with h | h
        · rw [h]; rfl
        · simp at h

/-- C8: on every invocation, process sends close exactly once, on the normal
and the exception path alike: the try-block itself emits no send_close and no
send_logging, and the full trace is the try-block trace followed — when an
exception escaped — by its traceback sent with level MRD_LOGGING_ERROR, and
then by the single send_close. -/
theorem b0_c8 {c z y x : Nat} (pr : ProcessRawFn c z y x) (cfg : Config)
    (hdr : MRDHeader) (dbg : Bool) (stream : List (StreamItem c z y x)) :
    (processCore pr cfg hdr dbg stream).1.countP Effect.isSendClose = 0 ∧
    (processCore pr cfg hdr dbg stream).1.countP Effect.isSendLogging = 0 ∧
    (process pr cfg hdr dbg stream).countP Effect.isSendClose = 1 ∧
    process pr cfg hdr dbg stream =
      (processCore pr cfg hdr dbg stream).1 ++
        (match (processCore pr cfg hdr dbg stream).2 with
         | some e => [Effect.sendLogging MRD_LOGGING_ERROR e, Effect.sendClose]
         | none => [Effect.sendClose]) := by
  have hclose : (processCore pr cfg hdr dbg stream).1.countP Effect.isSendClose = 0 := by
    rw [List.countP_eq_zero]
    intro e he
    rcases processCore_effects_classified pr cfg hdr dbg stream e he with h | h | h
    · cases e <;> simp_all [Effect.isSendImage, Effect.isSendClose]
    · rw [h]; simp [Effect.isSendClose]
    · rw [h]; simp [Effect.isSendClose]
  have hlog : (processCore pr cfg hdr dbg stream).1.countP Effect.isSendLogging = 0 := by
    rw [List.countP_eq_zero]
    intro e he
    rcases processCore_effects_classified pr cfg hdr dbg stream e he with h | h | h
    · cases e <;> simp_all [Effect.isSendImage, Effect.isSendLogging]
    · rw [h]; simp [Effect.isSendLogging]
    · rw [h]; simp [Effect.isSendLogging]
  refine ⟨hclose, hlog, ?_, ?_⟩
  · rw [process_eq]
    cases hr : (processCore pr cfg hdr dbg stream).2 with
    | some msg =>
      rw [List.countP_append, hclose]
      rfl
    | none =>
      rw [List.countP_append, hclose]
      rfl
  · rw [process_eq]
    cases hr : (processCore pr cfg hdr dbg stream).2 with
    | some msg => rfl
    | none => rfl

/-- The flag filter accepts an acquisition exactly when none of the four
excluded-category flags is set. -/
theorem keepAcquisition_iff (a : Acquisition) :
    keepAcquisition a = true ↔
      (a.is_flag_set ACQ_IS_NOISE_MEASUREMENT = false ∧
       a.is_flag_set ACQ_IS_PARALLEL_CALIBRATION = false ∧
       a.is_flag_set ACQ_IS_PHASECORR_DATA = false ∧
       a.is_flag_set ACQ_IS_NAVIGATION_DATA = false) := by
  unfold keepAcquisition
  simp [Bool.and_eq_true, Bool.not_eq_true', and_assoc]

/-- C3: dispatch of stream items.  An acquisition is appended to the
acquisition group iff none of the noise / parallel-calibration /
phase-correction / navigation flags is set (and left off the group
otherwise); every image is appended to the image group; every waveform is
appended to the waveform group; a None item terminates the loop (the rest of
the stream is ignored and the state is returned unchanged); an item of any
other type changes no group. -/
theorem b0_c3 {c z y x : Nat} (pr : ProcessRawFn c z y x)
    (gA : List Acquisition) (a : Acquisition) (im : MRDImage c z y x)
    (w : Waveform) (rest : List (StreamItem c z y x)) (s : LoopState c z y x) :
    (acqDispatch gA a = gA ++ [a] ↔
      (a.is_flag_set ACQ_IS_NOISE_MEASUREMENT = false ∧
       a.is_flag_set ACQ_IS_PARALLEL_CALIBRATION = false ∧
       a.is_flag_set ACQ_IS_PHASECORR_DATA = false ∧
       a.is_flag_set ACQ_IS_NAVIGATION_DATA = false)) ∧
    (acqDispatch gA a = gA ↔
      ¬(a.is_flag_set ACQ_IS_NOISE_MEASUREMENT = false ∧
        a.is_flag_set ACQ_IS_PARALLEL_CALIBRATION = false ∧
        a.is_flag_set ACQ_IS_PHASECORR_DATA = false ∧
        a.is_flag_set ACQ_IS_NAVIGATION_DATA = false)) ∧
    processItems pr (StreamItem.img im :: rest) s =
      processItems pr rest { s with imgGroup := s.imgGroup ++ [im] } ∧
    processItems pr (StreamItem.wav w :: rest) s =
      processItems pr rest { s with waveformGroup := s.waveformGroup ++ [w] } ∧
    processItems pr (StreamItem.noneItem :: rest) s = ([], s, none) ∧
    processItems pr (StreamItem.unsupported :: rest) s = processItems pr rest s := by
  have hlen : gA ++ [a] ≠ gA := by
    intro h
    have := congrArg List.length h
    simp at this
  refine ⟨?_, ?_, ?_, ?_, ?_, ?_⟩
  · constructor
    · intro h
      by_cases hk : keepAcquisition a
      · exact (keepAcquisition_iff a).mp hk
      · exfalso
        unfold acqDispatch at h
        rw [if_neg hk] at h
        exact hlen h.symm
    · intro hf
      unfold acqDispatch
      rw [if_pos ((keepAcquisition_iff a).mpr hf)]
  · constructor
    · intro h hf
      unfold acqDispatch at h
      rw [if_pos ((keepAcquisition_iff a).mpr hf)] at h
      exact hlen h
    · intro hf
      unfold acqDispatch
      rw [if_neg (fun hk => hf ((keepAcquisition_iff a).mp hk))]
  · rw [processItems]
  · rw [processItems]
  · rw [processItems]
  · rw [processItems]

/-- C2: when an acquisition carrying ACQ_LAST_IN_SLICE arrives, the
accumulated (filtered) acquisition group is handed to process_raw, the
resulting images are sent back with connection.send_image, and the loop
continues with the acquisition group reset to empty; likewise, a non-empty
acquisition group remaining at end of stream is processed and sent in the
epilogue before the image epilogue runs.  process_raw is kept abstract (it is
not defined in the repository sources); the claim is stated for any run of it
that returns images. -/
theorem b0_c2 {c z y x : Nat} (pr : ProcessRawFn c z y x) (cfg : Config)
    (hdr : MRDHeader) (dbg : Bool) (a : Acquisition)
    (rest : List (StreamItem c z y x)) (s s2 : LoopState c z y x)
    (imgs : List (MRDImage c z y x)) :
    (a.is_flag_set ACQ_LAST_IN_SLICE = true →
     pr (acqDispatch s.acqGroup a) = Except.ok imgs →
     processItems pr (StreamItem.acq a :: rest) s =
       (Effect.sendImage imgs :: (processItems pr rest { s with acqGroup := [] }).1,
        (processItems pr rest { s with acqGroup := [] }).2)) ∧
    (s2.acqGroup.length ≠ 0 →
     pr s2.acqGroup = Except.ok imgs →
     processEpilogue pr cfg hdr dbg s2 =
       (Effect.sendImage imgs :: (imageEpilogue cfg hdr dbg s2).1,
        (imageEpilogue cfg hdr dbg s2).2)) := by
  constructor
  · intro hf hok
    rw [processItems]
    simp only [hf, if_true, hok]
  · intro hne hok
    unfold processEpilogue
    rw [if_pos (Nat.pos_of_ne_zero hne), hok]

/-- Witness for C2 at concrete inputs: a last-in-slice acquisition triggers
the send and the group reset, and a remaining group is processed in the
epilogue. -/
theorem b0_c2_w :
    processItems pr0 [StreamItem.acq a0] s0 = ([Effect.sendImage []], s0, none) ∧
    processEpilogue pr0 cfg0 hdr0 true s1 = ([Effect.sendImage []], none) := by
  constructor
  · exact (b0_c2 pr0 cfg0 hdr0 true a0 [] s0 s1 []).1 rfl rfl
  · exact (b0_c2 pr0 cfg0 hdr0 true a0 [] s0 s1 []).2 (by decide) rfl

end B0
